import Mathlib

/-!
Verification of the tg-archive incremental sync pipeline (`tgarchive/sync.py`,
`tgarchive/db.py`) against its specification.

Modelling conventions:
* The SQLite tables `users`, `media`, `messages` (db.py, SCHEMA) are modelled
  as finite maps keyed by the integer primary key `id`; a row holds the
  remaining columns.  `INSERT OR REPLACE` / `INSERT .. ON CONFLICT DO UPDATE`
  are both keyed overwrites of the whole row, modelled as `Finmap.insert`.
* Timestamps are modelled at second granularity as `Nat`; the
  `strftime("%Y-%m-%d %H:%M:%S")` formatting used by `insert_message` is
  injective at that granularity, and the `strftime('%Y-%m-%d 00:00:00', date)`
  of `get_last_message_id` is modelled as flooring to the day.
* Network effects of the Telethon client (user objects, downloaded file
  names, poll payloads) are parameters of the corresponding definitions; the
  control flow around them is translated from the source.
* Python `None` is `Option.none`; Python truthiness of strings / lists is an
  explicit emptiness test where the source relies on it.
-/

/-- `db.User` (db.py lines 46-52). `tags` is a list joined with spaces on
insert. -/
structure TUser where
  id : Nat
  username : String
  first_name : Option String
  last_name : Option String
  tags : List String
  avatar : Option String
deriving DecidableEq

/-- One entry of the JSON poll-option array built by `Sync._make_poll`
(sync.py lines 346-358).  The `percent` key is absent from the dict until the
result loop assigns it, hence `Option`. -/
structure PollOption where
  label : String
  count : Nat
  percent : Option ℚ
  correct : Bool
deriving DecidableEq

/-- The `description` column of a media row: either free text (webpages) or
the `json.dumps` of the poll-option array.  JSON serialization is modelled as
a tagged value preserving the encoded list. -/
inductive MediaDescription where
  | text (s : String)
  | pollOptions (options : List PollOption)
deriving DecidableEq

/-- `db.Media` (db.py lines 55-61). -/
structure TMedia where
  id : Nat
  type : String
  url : Option String
  title : Option String
  description : Option MediaDescription
  thumb : Option String
deriving DecidableEq

/-- `db.Message` (db.py lines 64-72). -/
structure TMessage where
  id : Nat
  type : String
  date : Nat
  edit_date : Option Nat
  content : Option String
  reply_to : Option Nat
  user : TUser
  media : Option TMedia
deriving DecidableEq

/-- A stored row of the `users` table (columns other than the key `id`),
as written by `DB.insert_user` (db.py lines 226-235). -/
structure UserRow where
  username : String
  first_name : Option String
  last_name : Option String
  tags : String
  avatar : Option String
deriving DecidableEq

/-- A stored row of the `media` table, as written by `DB.insert_media`
(db.py lines 237-243). -/
structure MediaRow where
  type : String
  url : Option String
  title : Option String
  description : Option MediaDescription
  thumb : Option String
deriving DecidableEq

/-- A stored row of the `messages` table, as written by `DB.insert_message`
(db.py lines 245-253). -/
structure MessageRow where
  type : String
  date : Nat
  edit_date : Option Nat
  content : Option String
  reply_to : Option Nat
  user_id : Nat
  media_id : Option Nat
deriving DecidableEq

/-- The SQLite store (db.py SCHEMA, lines 12-43): three tables keyed by
`id`. -/
@[ext]
structure Store where
  users : Finmap (fun _ : Nat => UserRow)
  media : Finmap (fun _ : Nat => MediaRow)
  messages : Finmap (fun _ : Nat => MessageRow)

/-- The store of a freshly created database file (db.py lines 115-118). -/
def emptyStore : Store := ⟨∅, ∅, ∅⟩

/-- The tuple bound by `DB.insert_user` (db.py line 234):
`(u.id, u.username, u.first_name, u.last_name, " ".join(u.tags), u.avatar)`. -/
def userRow (u : TUser) : UserRow :=
  { username := u.username, first_name := u.first_name,
    last_name := u.last_name, tags := String.intercalate " " u.tags,
    avatar := u.avatar }

/-- The tuple bound by `DB.insert_media` (db.py line 243). -/
def mediaRow (m : TMedia) : MediaRow :=
  { type := m.type, url := m.url, title := m.title,
    description := m.description, thumb := m.thumb }

/-- The tuple bound by `DB.insert_message` (db.py lines 251-253); note
`media_id` is `m.media.id if m.media else None`. -/
def messageRow (m : TMessage) : MessageRow :=
  { type := m.type, date := m.date, edit_date := m.edit_date,
    content := m.content, reply_to := m.reply_to, user_id := m.user.id,
    media_id := m.media.map TMedia.id }

/-- `DB.insert_user` (db.py lines 226-235): upsert keyed by `id`
(`ON CONFLICT (id) DO UPDATE` overwriting every non-key column). -/
def insert_user (st : Store) (u : TUser) : Store :=
  { st with users := st.users.insert u.id (userRow u) }

/-- `DB.insert_media` (db.py lines 237-243): `INSERT OR REPLACE` keyed by
`id`. -/
def insert_media (st : Store) (m : TMedia) : Store :=
  { st with media := st.media.insert m.id (mediaRow m) }

/-- `DB.insert_message` (db.py lines 245-253): `INSERT OR REPLACE` keyed by
`id`. -/
def insert_message (st : Store) (m : TMessage) : Store :=
  { st with messages := st.messages.insert m.id (messageRow m) }

/-- `DB.commit` (db.py lines 255-257).  Durability is not modelled, so a
commit does not change the visible store state. -/
def dbCommit (st : Store) : Store := st

/-! ### Write sequences (claim C2)

A sync run issues a sequence of the three insert operations; `DBOp` records
one such call with its argument. -/

/-- One insert call made by the sync loop (sync.py lines 133-138). -/
inductive DBOp where
  | user (u : TUser)
  | media (m : TMedia)
  | message (m : TMessage)

/-- Apply one insert call to the store. -/
def applyOp (st : Store) : DBOp → Store
  | .user u => insert_user st u
  | .media m => insert_media st m
  | .message m => insert_message st m

/-- Apply a whole sequence of insert calls, in order. -/
def applyOps (st : Store) (ops : List DBOp) : Store :=
  ops.foldl applyOp st

/-- Generic keyed-overwrite machinery: apply a list of `(key, row)` writes to
one table, earlier writes first. -/
def applyWrites {β : Type} (m : Finmap (fun _ : Nat => β))
    (ws : List (Nat × β)) : Finmap (fun _ : Nat => β) :=
  ws.foldl (fun acc w => acc.insert w.1 w.2) m

/-- The last value written for key `k` in a write list, if any. -/
def lastWrite {β : Type} (ws : List (Nat × β)) (k : Nat) : Option β :=
  match ws with
  | [] => Option.none
  | w :: rest =>
    match lastWrite rest k with
    | some v => some v
    | Option.none => if k = w.1 then some w.2 else Option.none

theorem lookup_applyWrites {β : Type} (ws : List (Nat × β))
    (m : Finmap (fun _ : Nat => β)) (k : Nat) :
    (applyWrites m ws).lookup k =
      match lastWrite ws k with
      | some v => some v
      | Option.none => m.lookup k := by
  induction ws generalizing m with
  | nil => simp [applyWrites, lastWrite]
  | cons w rest ih =>
    show (applyWrites (m.insert w.1 w.2) rest).lookup k = _
    rw [ih]
    cases h : lastWrite rest k with
    | some v => simp [lastWrite, h]
    | none =>
      by_cases hk : k = w.1
      · subst hk
        simp [lastWrite, h, Finmap.lookup_insert]
      · simp [lastWrite, h, hk, Finmap.lookup_insert_of_ne _ hk]

theorem lastWrite_append {β : Type} (ws₁ ws₂ : List (Nat × β)) (k : Nat) :
    lastWrite (ws₁ ++ ws₂) k =
      match lastWrite ws₂ k with
      | some v => some v
      | Option.none => lastWrite ws₁ k := by
  induction ws₁ with
  | nil => simp [lastWrite]; cases lastWrite ws₂ k <;> rfl
  | cons w rest ih =>
    show lastWrite (w :: (rest ++ ws₂)) k = _
    rw [lastWrite, ih]
    cases lastWrite ws₂ k <;> cases h : lastWrite rest k <;>
      simp [lastWrite, h]

/-- Replaying a write list over its own result changes nothing: every write
is a keyed overwrite whose value does not depend on the current state. -/
theorem applyWrites_replay {β : Type} (ws : List (Nat × β))
    (m : Finmap (fun _ : Nat => β)) :
    applyWrites (applyWrites m ws) ws = applyWrites m ws := by
  have h : applyWrites (applyWrites m ws) ws = applyWrites m (ws ++ ws) := by
    simp [applyWrites, List.foldl_append]
  rw [h]
  apply Finmap.ext_lookup
  intro k
  rw [lookup_applyWrites, lookup_applyWrites, lastWrite_append]
  cases lastWrite ws k <;> rfl

/-- The writes an op sequence makes to the `users` table. -/
def userWrites (ops : List DBOp) : List (Nat × UserRow) :=
  ops.filterMap fun op =>
    match op with
    | .user u => some (u.id, userRow u)
    | _ => Option.none

/-- The writes an op sequence makes to the `media` table. -/
def mediaWrites (ops : List DBOp) : List (Nat × MediaRow) :=
  ops.filterMap fun op =>
    match op with
    | .media m => some (m.id, mediaRow m)
    | _ => Option.none

/-- The writes an op sequence makes to the `messages` table. -/
def messageWrites (ops : List DBOp) : List (Nat × MessageRow) :=
  ops.filterMap fun op =>
    match op with
    | .message m => some (m.id, messageRow m)
    | _ => Option.none

theorem users_applyOps (ops : List DBOp) (st : Store) :
    (applyOps st ops).users = applyWrites st.users (userWrites ops) := by
  induction ops generalizing st with
  | nil => rfl
  | cons op rest ih =>
    cases op <;>
      simp [applyOps, applyOp, insert_user, insert_media, insert_message,
        userWrites, applyWrites, List.foldl_cons, List.filterMap_cons] <;>
      exact ih _

theorem media_applyOps (ops : List DBOp) (st : Store) :
    (applyOps st ops).media = applyWrites st.media (mediaWrites ops) := by
  induction ops generalizing st with
  | nil => rfl
  | cons op rest ih =>
    cases op <;>
      simp [applyOps, applyOp, insert_user, insert_media, insert_message,
        mediaWrites, applyWrites, List.foldl_cons, List.filterMap_cons] <;>
      exact ih _

theorem messages_applyOps (ops : List DBOp) (st : Store) :
    (applyOps st ops).messages =
      applyWrites st.messages (messageWrites ops) := by
  induction ops generalizing st with
  | nil => rfl
  | cons op rest ih =>
    cases op <;>
      simp [applyOps, applyOp, insert_user, insert_media, insert_message,
        messageWrites, applyWrites, List.foldl_cons, List.filterMap_cons] <;>
      exact ih _

/-- C2: applying a sequence of normalized insert operations twice from the
same starting store yields the same store state as applying it once — every
write of `insert_user` / `insert_media` / `insert_message` is an idempotent
upsert keyed by id, so re-running sync from the same resume point produces no
duplicate rows and an identical final state. -/
theorem sync_replay_idempotent (ops : List DBOp) (st : Store) :
    applyOps (applyOps st ops) ops = applyOps st ops := by
  ext1
  · simp only [users_applyOps]
    exact applyWrites_replay _ _
  · simp only [media_applyOps]
    exact applyWrites_replay _ _
  · simp only [messages_applyOps]
    exact applyWrites_replay _ _

/-! ### The sync loop (sync.py) -/

/-- The `message.action` variants the sync loop inspects
(sync.py lines 258-265). -/
inductive MsgAction where
  | noAction
  | chatAddUser
  | chatDeleteUser
  | otherAction
deriving DecidableEq

/-- A raw Telethon message as consumed by `Sync._get_messages`
(sync.py lines 224-276).  Network-resolved values are carried directly:
`sender` is the `User` record produced by `Sync._get_user` for `m.sender`
(`Option.none` when the raw message has no sender), `sticker` is the alt
emoji extracted from a sticker document (lines 239-251, empty handled by
truthiness), and `resolved_media` is the record produced by
`Sync._make_poll` / `Sync._get_media` (lines 252-255). -/
structure RawMessage where
  id : Nat
  sender : Option TUser
  date : Nat
  edit_date : Option Nat
  raw_text : Option String
  reply_to_msg_id : Option Nat
  sticker : Option String
  resolved_media : Option TMedia
  action : MsgAction
deriving DecidableEq

/-- The `typ` computed from `m.action` (sync.py lines 257-265). -/
def messageTypeOf (a : MsgAction) : String :=
  match a with
  | .chatAddUser => "user_joined"
  | .chatDeleteUser => "user_left"
  | _ => "message"

/-- The body of `Sync._get_messages` for one raw message (sync.py lines
231-276): messages without a sender are skipped (`continue`), otherwise a
`db.Message` is yielded; `content` is the sticker alt text when truthy, else
`m.raw_text`. -/
def convertMessage (m : RawMessage) : Option TMessage :=
  match m.sender with
  | Option.none => Option.none
  | some u =>
    some { id := m.id, type := messageTypeOf m.action, date := m.date,
           edit_date := m.edit_date,
           content :=
             match m.sticker with
             | some s => if s ≠ "" then some s else m.raw_text
             | Option.none => m.raw_text,
           reply_to := m.reply_to_msg_id, user := u,
           media := m.resolved_media }

/-- The sync-relevant configuration keys (config.py; `fetch_limit` is `0`
when no limit is configured, making `0 < fetch_limit` false as in
sync.py line 146). -/
structure SyncConfig where
  fetch_batch_size : Nat
  fetch_limit : Nat

/-- `Sync._fetch_messages` in the default (no explicit ids) path
(sync.py lines 278-294): `client.get_messages(group, offset_id, limit,
reverse=True)` returns the messages with id strictly greater than
`offset_id`, in ascending (chronological) order, at most `limit` of them.
`remote` models the group's full ascending-id history. -/
def fetchMessages (remote : List RawMessage) (offset_id batch : Nat) :
    List RawMessage :=
  (remote.filter (fun m => offset_id < m.id)).take batch

/-- `Sync._get_messages` over a fetched page (sync.py lines 224-276). -/
def getMessages (remote : List RawMessage) (offset_id batch : Nat) :
    List TMessage :=
  (fetchMessages remote offset_id batch).filterMap convertMessage

/-- The per-message persistence of one sync-loop iteration (sync.py lines
132-138): insert the user, then the media when the message has one, then the
message itself. -/
def persistMessage (st : Store) (m : TMessage) : Store :=
  let st1 := insert_user st m.user
  let st2 :=
    match m.media with
    | some md => insert_media st1 md
    | Option.none => st1
  insert_message st2 m

/-- The inner `async for` of `Sync.sync` over one page (sync.py lines
125-148), tracking `(store, n, has, last processed message)`.  `has` is set
per processed message and reset to `False` on the fetch-limit / ids break
(lines 146-148); the every-300-messages `commit` (lines 142-144) does not
change the modelled store state. -/
def processPage (cfg : SyncConfig) (idsGiven : Bool) :
    List TMessage → Store → Nat → Bool → Option TMessage →
      Store × Nat × Bool × Option TMessage
  | [], st, n, has, lastM => (st, n, has, lastM)
  | m :: rest, st, n, _, _ =>
    let st' := dbCommit (persistMessage st m)
    let n' := n + 1
    if (0 < cfg.fetch_limit ∧ cfg.fetch_limit ≤ n') ∨ idsGiven = true then
      (st', n', false, some m)
    else
      processPage cfg idsGiven rest st' n' true (some m)

/-- The outer `while True` of `Sync.sync` (sync.py lines 123-158): fetch a
page from the current offset, process it, and either advance the offset to
the last processed message's id and loop, or stop when the page yielded
nothing usable.  `fuel` bounds the number of iterations so the recursion is
structural; `Option.none` means the fuel ran out before the loop stopped. -/
def syncLoop (cfg : SyncConfig) (idsGiven : Bool)
    (remote : List RawMessage) :
    Nat → Nat → Store → Nat → Option (Store × Nat)
  | 0, _, _, _ => Option.none
  | fuel + 1, lastId, st, n =>
    match processPage cfg idsGiven
        (getMessages remote lastId cfg.fetch_batch_size) st n false
        Option.none with
    | (st', n', true, some m) => syncLoop cfg idsGiven remote fuel m.id st' n'
    | (st', n', true, Option.none) => some (dbCommit st', n')
    | (st', n', false, _) => some (dbCommit st', n')

/-- `DB.get_last_message_id` (db.py lines 123-134):
`SELECT id, strftime('%Y-%m-%d 00:00:00', date) ORDER BY id DESC LIMIT 1`,
that is the row with the greatest id, its date floored to the day; `(0,
None)` when the table is empty. -/
def get_last_message_id (st : Store) : Nat × Option Nat :=
  if st.messages.keys = ∅ then (0, Option.none)
  else
    let i := st.messages.keys.fold max 0 id
    (i, (st.messages.lookup i).map (fun r => r.date / 86400 * 86400))

/-- The resume-point selection of `Sync.sync` (sync.py lines 109-118) for
the non-ids paths: an explicit truthy `from_id` wins, otherwise the store's
last message id.  (`elif from_id:` — a `from_id` of `0` is falsy and falls
through to the store lookup.) -/
def resumeLastId (from_id : Option Nat) (st : Store) : Nat :=
  match from_id with
  | some f => if f ≠ 0 then f else (get_last_message_id st).1
  | Option.none => (get_last_message_id st).1

/-- `Sync.sync` without an explicit id list (sync.py lines 102-164):
determine the resume point, then run the fetch loop starting at it with the
message counter at 0.  (The explicit `ids=[...]` path — which also passes the
list itself as `offset_id` and builds a malformed kwargs dict, line 293 —
is outside the claims and not modelled.) -/
def sync (cfg : SyncConfig) (remote : List RawMessage) (fuel : Nat)
    (from_id : Option Nat) (st : Store) : Option (Store × Nat) :=
  syncLoop cfg false remote fuel (resumeLastId from_id st) st 0

/-! ### Claim C3: the media foreign-key invariant -/

/-- The foreign-key invariant of the schema (db.py lines 12-24): every
message row whose `media_id` is non-null has a media row with that id. -/
def MediaFKInv (st : Store) : Prop :=
  ∀ i r, st.messages.lookup i = some r →
    ∀ j, r.media_id = some j → (st.media.lookup j).isSome

theorem lookup_isSome_insert {β : Type} (m : Finmap (fun _ : Nat => β))
    (a : Nat) (b : β) (j : Nat) (h : (m.lookup j).isSome) :
    ((m.insert a b).lookup j).isSome := by
  by_cases hj : j = a
  · subst hj; simp [Finmap.lookup_insert]
  · rwa [Finmap.lookup_insert_of_ne _ hj]

/-- One iteration of the sync loop persists User first, then Media (when the
message has one), then Message, so it preserves the foreign-key invariant:
the message row's `media_id` is exactly the id of the media row inserted
just before it. -/
theorem persistMessage_fk (st : Store) (m : TMessage) (hinv : MediaFKInv st) :
    MediaFKInv (persistMessage st m) := by
  intro i r hlook j hmed
  cases hm : m.media with
  | none =>
    simp only [persistMessage, hm, insert_user, insert_media,
      insert_message] at hlook ⊢
    by_cases hi : i = m.id
    · subst hi
      rw [Finmap.lookup_insert] at hlook
      cases hlook
      simp [messageRow, hm] at hmed
    · rw [Finmap.lookup_insert_of_ne _ hi] at hlook
      exact hinv i r hlook j hmed
  | some md =>
    simp only [persistMessage, hm, insert_user, insert_media,
      insert_message] at hlook ⊢
    by_cases hi : i = m.id
    · subst hi
      rw [Finmap.lookup_insert] at hlook
      cases hlook
      simp only [messageRow, hm] at hmed
      obtain rfl : md.id = j := by simpa using hmed
      simp [Finmap.lookup_insert]
    · rw [Finmap.lookup_insert_of_ne _ hi] at hlook
      exact lookup_isSome_insert _ _ _ _ (hinv i r hlook j hmed)

theorem processPage_fk (cfg : SyncConfig) (idsGiven : Bool)
    (ms : List TMessage) (st : Store) (n : Nat) (has : Bool)
    (lastM : Option TMessage) (hinv : MediaFKInv st) :
    MediaFKInv (processPage cfg idsGiven ms st n has lastM).1 := by
  induction ms generalizing st n has lastM with
  | nil => exact hinv
  | cons m rest ih =>
    rw [processPage]
    split
    · exact persistMessage_fk st m hinv
    · exact ih _ _ _ _ (persistMessage_fk st m hinv)

theorem syncLoop_fk (cfg : SyncConfig) (idsGiven : Bool)
    (remote : List RawMessage) (fuel lastId : Nat) (st : Store) (n : Nat)
    (st' : Store) (n' : Nat) (hinv : MediaFKInv st)
    (hrun : syncLoop cfg idsGiven remote fuel lastId st n = some (st', n')) :
    MediaFKInv st' := by
  induction fuel generalizing lastId st n with
  | zero => exact absurd hrun (by simp [syncLoop])
  | succ fuel ih =>
    rw [syncLoop] at hrun
    have hpage := processPage_fk cfg idsGiven
      (getMessages remote lastId cfg.fetch_batch_size) st n false
      Option.none hinv
    rcases hp : processPage cfg idsGiven
        (getMessages remote lastId cfg.fetch_batch_size) st n false
        Option.none with ⟨st1, n1, has1, lastM1⟩
    rw [hp] at hrun hpage
    cases has1 <;> cases lastM1 <;>
      first
        | exact ih _ _ _ hpage hrun
        | (cases hrun; exact hpage)

/-- C3: within one sync iteration the persistence order is User, then Media
(when present), then Message (`persistMessage`), and consequently every
store reachable by a completed `sync` run from an invariant-satisfying store
satisfies the media foreign-key invariant: a message row with non-null
`media_id` always has a media row with that id. -/
theorem sync_media_fk_invariant (cfg : SyncConfig)
    (remote : List RawMessage) (fuel : Nat) (from_id : Option Nat)
    (st st' : Store) (n' : Nat) (hinv : MediaFKInv st)
    (hrun : sync cfg remote fuel from_id st = some (st', n')) :
    MediaFKInv st' :=
  syncLoop_fk cfg false remote fuel (resumeLastId from_id st) st 0 st' n'
    hinv hrun

/-- Concrete run for `sync_media_fk_invariant`: the empty store satisfies
the invariant, and a two-page sync over a one-message history (the message
carrying a media record) completes with the invariant intact. -/
theorem sync_media_fk_invariant_witness :
    MediaFKInv
      (persistMessage emptyStore
        { id := 1, type := "message", date := 10, edit_date := Option.none,
          content := some "hi", reply_to := Option.none,
          user := ⟨7, "u7", Option.none, Option.none, [], Option.none⟩,
          media := some ⟨1, "photo", some "f", some "t", Option.none,
            Option.none⟩ }) := by
  refine sync_media_fk_invariant ⟨10, 0⟩
    [{ id := 1, sender := some ⟨7, "u7", Option.none, Option.none, [],
        Option.none⟩, date := 10, edit_date := Option.none,
        raw_text := some "hi", reply_to_msg_id := Option.none,
        sticker := Option.none,
        resolved_media := some ⟨1, "photo", some "f", some "t", Option.none,
          Option.none⟩, action := MsgAction.noAction }]
    2 Option.none emptyStore _ 1 ?_ rfl
  intro i r hlook j hmed
  rw [show (emptyStore.messages) = ∅ from rfl, Finmap.lookup_empty] at hlook
  cases hlook

/-! ### Claim C9: resume point on an empty store -/

/-- C9: on an empty store `get_last_message_id` returns `(0, None)` rather
than failing, a default sync (no explicit ids, no from-id) therefore resumes
from offset 0, and fetching at offset 0 returns the group history from the
beginning (all remote ids are positive, so the `id > offset_id` filter keeps
everything, bounded only by the batch size). -/
theorem empty_store_starts_from_zero (st : Store)
    (h : st.messages.keys = ∅) :
    get_last_message_id st = (0, Option.none) ∧
      resumeLastId Option.none st = 0 ∧
      ∀ (remote : List RawMessage) (b : Nat),
        (∀ r ∈ remote, 1 ≤ r.id) →
        fetchMessages remote 0 b = remote.take b := by
  refine ⟨by simp [get_last_message_id, h], ?_, ?_⟩
  · simp [resumeLastId, get_last_message_id, h]
  · intro remote b hpos
    unfold fetchMessages
    congr 1
    induction remote with
    | nil => rfl
    | cons r rest ih =>
      have h1 : 0 < r.id := hpos r (by simp)
      simp only [List.filter_cons, decide_eq_true_eq]
      rw [if_pos h1]
      rw [ih (fun x hx => hpos x (by simp [hx]))]

/-- Concrete instance for `empty_store_starts_from_zero` at the empty
store. -/
theorem empty_store_starts_from_zero_witness :
    get_last_message_id emptyStore = (0, Option.none) ∧
      resumeLastId Option.none emptyStore = 0 ∧
      ∀ (remote : List RawMessage) (b : Nat),
        (∀ r ∈ remote, 1 ≤ r.id) →
        fetchMessages remote 0 b = remote.take b :=
  empty_store_starts_from_zero emptyStore rfl

/-! ### Claim C1: resuming from the stored cursor -/

/-- The `db.Message` yielded by `Sync._get_messages` (sync.py lines 267-276)
for a raw message whose sender resolved to `u`. -/
def resolvedMessage (r : RawMessage) (u : TUser) : TMessage :=
  { id := r.id, type := messageTypeOf r.action, date := r.date,
    edit_date := r.edit_date,
    content :=
      match r.sticker with
      | some s => if s ≠ "" then some s else r.raw_text
      | Option.none => r.raw_text,
    reply_to := r.reply_to_msg_id, user := u, media := r.resolved_media }

@[simp]
theorem resolvedMessage_id (r : RawMessage) (u : TUser) :
    (resolvedMessage r u).id = r.id := rfl

theorem convertMessage_eq_some (r : RawMessage) (u : TUser)
    (h : r.sender = some u) :
    convertMessage r = some (resolvedMessage r u) := by
  simp [convertMessage, h, resolvedMessage]

theorem persistMessage_messages (st : Store) (m : TMessage) :
    (persistMessage st m).messages =
      st.messages.insert m.id (messageRow m) := by
  rcases hm : m.media with _ | md <;>
    simp [persistMessage, hm, insert_user, insert_media, insert_message]

theorem mem_keys_insert {β : Type} (s : Finmap (fun _ : Nat => β))
    (a j : Nat) (b : β) :
    j ∈ (s.insert a b).keys ↔ j = a ∨ j ∈ s.keys := by
  simp [Finmap.mem_keys, Finmap.mem_insert]

theorem keys_insert_eq {β : Type} (s : Finmap (fun _ : Nat => β))
    (a : Nat) (b : β) :
    (s.insert a b).keys = insert a s.keys := by
  ext j
  simp [Finmap.mem_keys, Finmap.mem_insert]

/-- C1: from a store whose highest stored message id is 100 (the default
resume cursor), when the remote fetch at offset 100 returns exactly the
messages with ids 101-105 (each with a sender) and the fetch at offset 105
returns an empty page, `sync` completes having persisted exactly 5 new
message rows, the store's maximum message id becomes 105, and — because
`fetchMessages` returns only messages strictly after `offset_id`, in the
history's ascending order — messages at or below the resume cursor are never
re-fetched. -/
theorem sync_from_resume_cursor (cfg : SyncConfig)
    (remote : List RawMessage) (st0 : Store)
    (r1 r2 r3 r4 r5 : RawMessage)
    (hlim : cfg.fetch_limit = 0)
    (hsorted : List.Pairwise (fun a c => a.id < c.id) remote)
    (hlast : (get_last_message_id st0).1 = 100)
    (hbound : ∀ i ∈ st0.messages.keys, i ≤ 100)
    (hids : [r1.id, r2.id, r3.id, r4.id, r5.id] = [101, 102, 103, 104, 105])
    (hu1 : r1.sender.isSome = true) (hu2 : r2.sender.isSome = true)
    (hu3 : r3.sender.isSome = true) (hu4 : r4.sender.isSome = true)
    (hu5 : r5.sender.isSome = true)
    (hpage1 : fetchMessages remote 100 cfg.fetch_batch_size
      = [r1, r2, r3, r4, r5])
    (hpage2 : fetchMessages remote 105 cfg.fetch_batch_size = []) :
    ∃ st', sync cfg remote 2 Option.none st0 = some (st', 5) ∧
      st'.messages.keys.card = st0.messages.keys.card + 5 ∧
      (∀ j, j ∈ st'.messages.keys ↔
        j ∈ st0.messages.keys ∨ j ∈ ([101, 102, 103, 104, 105] : List Nat)) ∧
      105 ∈ st'.messages.keys ∧
      (∀ j ∈ st'.messages.keys, j ≤ 105) ∧
      (∀ offset b r, r ∈ fetchMessages remote offset b → offset < r.id) ∧
      (∀ offset b, List.Pairwise (fun a c => a.id < c.id)
        (fetchMessages remote offset b)) := by
  obtain ⟨h1, h2, h3, h4, h5⟩ :
      r1.id = 101 ∧ r2.id = 102 ∧ r3.id = 103 ∧ r4.id = 104 ∧
        r5.id = 105 := by
    simpa using hids
  obtain ⟨u1, hs1⟩ := Option.isSome_iff_exists.mp hu1
  obtain ⟨u2, hs2⟩ := Option.isSome_iff_exists.mp hu2
  obtain ⟨u3, hs3⟩ := Option.isSome_iff_exists.mp hu3
  obtain ⟨u4, hs4⟩ := Option.isSome_iff_exists.mp hu4
  obtain ⟨u5, hs5⟩ := Option.isSome_iff_exists.mp hu5
  set m1 := resolvedMessage r1 u1 with hm1
  set m2 := resolvedMessage r2 u2 with hm2
  set m3 := resolvedMessage r3 u3 with hm3
  set m4 := resolvedMessage r4 u4 with hm4
  set m5 := resolvedMessage r5 u5 with hm5
  have hc1 := convertMessage_eq_some r1 u1 hs1
  have hc2 := convertMessage_eq_some r2 u2 hs2
  have hc3 := convertMessage_eq_some r3 u3 hs3
  have hc4 := convertMessage_eq_some r4 u4 hs4
  have hc5 := convertMessage_eq_some r5 u5 hs5
  have hpageEq : getMessages remote 100 cfg.fetch_batch_size
      = [m1, m2, m3, m4, m5] := by
    simp [getMessages, hpage1, List.filterMap_cons, hc1, hc2, hc3, hc4, hc5]
  have hpage2Eq : getMessages remote 105 cfg.fetch_batch_size = [] := by
    simp [getMessages, hpage2]
  have step : ∀ (m : TMessage) (rest : List TMessage) (st : Store) (n : Nat)
      (has : Bool) (lastM : Option TMessage),
      processPage cfg false (m :: rest) st n has lastM =
        processPage cfg false rest (persistMessage st m) (n + 1) true
          (some m) := by
    intro m rest st n has lastM
    simp [processPage, hlim, dbCommit]
  set st5 := persistMessage (persistMessage (persistMessage (persistMessage
    (persistMessage st0 m1) m2) m3) m4) m5 with hst5
  have hproc : processPage cfg false [m1, m2, m3, m4, m5] st0 0 false
      Option.none = (st5, 5, true, some m5) := by
    rw [step, step, step, step, step]
    rfl
  have hm5id : m5.id = 105 := h5
  have hsync : sync cfg remote 2 Option.none st0 = some (st5, 5) := by
    show syncLoop cfg false remote 2 (resumeLastId Option.none st0) st0 0 = _
    rw [show resumeLastId Option.none st0 = 100 from hlast]
    rw [show (2 : Nat) = 1 + 1 from rfl, syncLoop, hpageEq, hproc]
    show syncLoop cfg false remote 1 m5.id st5 5 = some (st5, 5)
    rw [hm5id, show (1 : Nat) = 0 + 1 from rfl, syncLoop, hpage2Eq]
    rfl
  have hmsgs5 : st5.messages =
      ((((st0.messages.insert 101 (messageRow m1)).insert 102
        (messageRow m2)).insert 103 (messageRow m3)).insert 104
        (messageRow m4)).insert 105 (messageRow m5) := by
    rw [hst5]
    rw [persistMessage_messages, persistMessage_messages,
      persistMessage_messages, persistMessage_messages,
      persistMessage_messages]
    rw [show m1.id = 101 from h1, show m2.id = 102 from h2,
      show m3.id = 103 from h3, show m4.id = 104 from h4,
      show m5.id = 105 from h5]
  have hkeys5 : st5.messages.keys =
      insert 105 (insert 104 (insert 103 (insert 102 (insert 101
        st0.messages.keys)))) := by
    rw [hmsgs5, keys_insert_eq, keys_insert_eq, keys_insert_eq,
      keys_insert_eq, keys_insert_eq]
  have knot : ∀ x : Nat, 100 < x → x ∉ st0.messages.keys := by
    intro x hx h
    have := hbound _ h
    omega
  refine ⟨st5, hsync, ?_, ?_, ?_, ?_, ?_, ?_⟩
  · rw [hkeys5]
    have k1 : (101 : Nat) ∉ st0.messages.keys := knot _ (by omega)
    have k2 : (102 : Nat) ∉ insert 101 st0.messages.keys := by
      simp only [Finset.mem_insert]
      rintro (h | h)
      · omega
      · exact knot _ (by omega) h
    have k3 : (103 : Nat) ∉ insert 102 (insert 101 st0.messages.keys) := by
      simp only [Finset.mem_insert]
      rintro (h | h | h)
      · omega
      · omega
      · exact knot _ (by omega) h
    have k4 : (104 : Nat) ∉
        insert 103 (insert 102 (insert 101 st0.messages.keys)) := by
      simp only [Finset.mem_insert]
      rintro (h | h | h | h)
      · omega
      · omega
      · omega
      · exact knot _ (by omega) h
    have k5 : (105 : Nat) ∉
        insert 104 (insert 103 (insert 102 (insert 101
          st0.messages.keys))) := by
      simp only [Finset.mem_insert]
      rintro (h | h | h | h | h)
      · omega
      · omega
      · omega
      · omega
      · exact knot _ (by omega) h
    rw [Finset.card_insert_of_not_mem k5, Finset.card_insert_of_not_mem k4,
      Finset.card_insert_of_not_mem k3, Finset.card_insert_of_not_mem k2,
      Finset.card_insert_of_not_mem k1]
  · intro j
    rw [hkeys5]
    simp only [Finset.mem_insert, List.mem_cons, List.not_mem_nil, or_false]
    tauto
  · rw [hkeys5]
    simp
  · intro j hj
    rw [hkeys5] at hj
    simp only [Finset.mem_insert] at hj
    rcases hj with h | h | h | h | h | h
    · omega
    · omega
    · omega
    · omega
    · omega
    · have := hbound _ h
      omega
  · intro offset b r hr
    have hr' : r ∈ remote.filter (fun m => offset < m.id) :=
      List.mem_of_mem_take hr
    have := List.of_mem_filter hr'
    simpa using this
  · intro offset b
    exact hsorted.sublist
      ((List.take_sublist _ _).trans (List.filter_sublist _))

/-- Concrete user for the `sync_from_resume_cursor` run. -/
def syncUserW : TUser := ⟨7, "u7", Option.none, Option.none, [], Option.none⟩

/-- Concrete raw message with id `i` for the `sync_from_resume_cursor`
run. -/
def syncRawW (i : Nat) : RawMessage :=
  { id := i, sender := some syncUserW, date := i, edit_date := Option.none,
    raw_text := some "hello", reply_to_msg_id := Option.none,
    sticker := Option.none, resolved_media := Option.none,
    action := MsgAction.noAction }

/-- Concrete remote history: messages 101-105. -/
def syncRemoteW : List RawMessage :=
  [syncRawW 101, syncRawW 102, syncRawW 103, syncRawW 104, syncRawW 105]

/-- Concrete store whose highest stored message id is 100. -/
def syncStoreW : Store :=
  ⟨∅, ∅, (∅ : Finmap (fun _ : Nat => MessageRow)).insert 100
    ⟨"message", 100, Option.none, some "old", Option.none, 7, Option.none⟩⟩

/-- Concrete run of `sync_from_resume_cursor`. -/
theorem sync_from_resume_cursor_witness :
    ∃ st', sync ⟨100, 0⟩ syncRemoteW 2 Option.none syncStoreW
        = some (st', 5) ∧
      st'.messages.keys.card = syncStoreW.messages.keys.card + 5 ∧
      (∀ j, j ∈ st'.messages.keys ↔
        j ∈ syncStoreW.messages.keys ∨
          j ∈ ([101, 102, 103, 104, 105] : List Nat)) ∧
      105 ∈ st'.messages.keys ∧
      (∀ j ∈ st'.messages.keys, j ≤ 105) ∧
      (∀ offset b r, r ∈ fetchMessages syncRemoteW offset b →
        offset < r.id) ∧
      (∀ offset b, List.Pairwise (fun a c => a.id < c.id)
        (fetchMessages syncRemoteW offset b)) :=
  sync_from_resume_cursor ⟨100, 0⟩ syncRemoteW syncStoreW
    (syncRawW 101) (syncRawW 102) (syncRawW 103) (syncRawW 104)
    (syncRawW 105) rfl (by decide) (by decide) (by decide) (by decide)
    rfl rfl rfl rfl rfl (by decide) (by decide)

/-! ### Claim C4: flood-wait handling in `Sync._fetch_messages` -/

/-- The outcome of the single `client.get_messages` call made by
`Sync._fetch_messages` (sync.py lines 285-296): either a page of messages or
a `FloodWaitError` carrying the provider's required wait in seconds. -/
inductive GetMessagesResult where
  | ok (ms : List RawMessage)
  | floodWaitError (seconds : Nat)

/-- The `try`/`except` of `Sync._fetch_messages` (sync.py lines 285-296):
on success the page is returned; on `FloodWaitError` the handler logs
`e.seconds` and the function falls off its end, returning `None`.  The
function performs exactly one client call — it never retries internally. -/
def fetch_messages_outcome (clientResult : GetMessagesResult) :
    Option (List RawMessage) :=
  match clientResult with
  | .ok ms => some ms
  | .floodWaitError _ => Option.none

/-- C4 counterexample: on a flood-wait signal (here: 30 seconds) the caller
receives `None` — a null result that carries no wait duration — refuting the
claim that the adapter reports a typed flood-wait outcome to the caller. -/
theorem fetch_messages_swallows_floodwait :
    fetch_messages_outcome (GetMessagesResult.floodWaitError 30)
      = Option.none := rfl

/-- C4 amended: the adapter indeed does not retry internally (it makes one
client call), but on flood-wait it logs and swallows the error, returning
`None`; the wait duration is not propagated to the caller (a page is
returned unchanged only on success). -/
theorem fetch_messages_floodwait_behavior :
    (∀ s, fetch_messages_outcome (GetMessagesResult.floodWaitError s)
      = Option.none) ∧
    (∀ ms, fetch_messages_outcome (GetMessagesResult.ok ms) = some ms) :=
  ⟨fun _ => rfl, fun _ => rfl⟩

/-! ### Claim C5: takeout negotiation in `Sync.new_client` -/

/-- The outcome of one `client.takeout(...).__aenter__()` +
`get_messages("me")` probe (sync.py lines 198-214). -/
inductive TakeoutAttemptResult where
  | succeeded
  | initDelayError (seconds : Nat)
  | invalidError

/-- How `Sync.new_client` terminates in takeout mode. -/
inductive NewClientResult where
  | takeoutClient
  | typeErrorCrash
  | takeoutFailedError
deriving DecidableEq

/-- The `for retry in range(3) ... else` of `Sync.new_client` (sync.py lines
196-217), parameterized by the outcome of each attempt and recursing on the
remaining iterations while counting attempts made.  A successful attempt
returns the takeout client; `TakeoutInitDelayError` logs guidance, blocks on
`input()` for operator confirmation, and lets the loop continue;
`TakeoutInvalidError` is logged and the loop continues.  When the loop
exhausts all iterations, the `else:` block runs `logging.warning()` with no
message argument — which raises `TypeError` — so the
`raise TakeoutFailedError()` on line 217 is never reached. -/
def takeoutNegotiation (attempt : Nat → TakeoutAttemptResult) :
    Nat → Nat → NewClientResult × Nat
  | 0, tried => (.typeErrorCrash, tried)
  | remaining + 1, tried =>
    match attempt tried with
    | .succeeded => (.takeoutClient, tried + 1)
    | .initDelayError _ => takeoutNegotiation attempt remaining (tried + 1)
    | .invalidError => takeoutNegotiation attempt remaining (tried + 1)

/-- `Sync.new_client` in takeout mode (sync.py lines 195-217):
`range(3)` iterations starting with no attempts made.  Returns how the call
terminates together with the number of attempts performed. -/
def new_client_takeout (attempt : Nat → TakeoutAttemptResult) :
    NewClientResult × Nat :=
  takeoutNegotiation attempt 3 0

theorem takeoutNegotiation_tried_le (attempt : Nat → TakeoutAttemptResult)
    (remaining tried : Nat) :
    (takeoutNegotiation attempt remaining tried).2 ≤ tried + remaining := by
  induction remaining generalizing tried with
  | zero => simp [takeoutNegotiation]
  | succ r ih =>
    rw [takeoutNegotiation]
    cases attempt tried with
    | succeeded => simp
    | initDelayError s =>
      have := ih (tried + 1)
      show (takeoutNegotiation attempt r (tried + 1)).2 ≤ tried + (r + 1)
      omega
    | invalidError =>
      have := ih (tried + 1)
      show (takeoutNegotiation attempt r (tried + 1)).2 ≤ tried + (r + 1)
      omega

/-- C5: the takeout negotiation performs at most 3 attempts in every case;
but when every attempt fails with the provider's delay signal, the code
terminates after the 3rd attempt with a `TypeError` raised by the
argument-less `logging.warning()` call on line 216 — `TakeoutFailedError`
(line 217) is dead code and is never raised. -/
theorem takeout_three_delays_crashes (attempt : Nat → TakeoutAttemptResult)
    (h : ∀ i, ∃ s, attempt i = TakeoutAttemptResult.initDelayError s) :
    new_client_takeout attempt = (NewClientResult.typeErrorCrash, 3) ∧
      (new_client_takeout attempt).1 ≠ NewClientResult.takeoutFailedError ∧
      ∀ g : Nat → TakeoutAttemptResult, (new_client_takeout g).2 ≤ 3 := by
  obtain ⟨s0, h0⟩ := h 0
  obtain ⟨s1, h1⟩ := h 1
  obtain ⟨s2, h2⟩ := h 2
  have hrun : new_client_takeout attempt
      = (NewClientResult.typeErrorCrash, 3) := by
    unfold new_client_takeout
    rw [takeoutNegotiation, h0, takeoutNegotiation, h1, takeoutNegotiation,
      h2]
    rfl
  refine ⟨hrun, by rw [hrun]; simp, ?_⟩
  intro g
  have := takeoutNegotiation_tried_le g 3 0
  exact this

/-- Concrete run for `takeout_three_delays_crashes`: every attempt reports a
60-second takeout delay. -/
theorem takeout_three_delays_crashes_witness :
    new_client_takeout (fun _ => TakeoutAttemptResult.initDelayError 60)
        = (NewClientResult.typeErrorCrash, 3) ∧
      (new_client_takeout
        (fun _ => TakeoutAttemptResult.initDelayError 60)).1
        ≠ NewClientResult.takeoutFailedError ∧
      ∀ g : Nat → TakeoutAttemptResult, (new_client_takeout g).2 ≤ 3 :=
  takeout_three_delays_crashes (fun _ => .initDelayError 60)
    (fun _ => ⟨60, rfl⟩)

/-! ### Claim C6: `Sync._make_poll` -/

/-- One `poll.answers` entry (telethon `PollAnswer`): the option label. -/
structure PollAnswer where
  text : String
deriving DecidableEq

/-- One `results.results` entry (telethon `PollAnswerVoters`). -/
structure PollAnswerVoters where
  voters : Nat
  correct : Bool
deriving DecidableEq

/-- `msg.media.results` (telethon `PollResults`): per-answer vote counts and
the total number of voters. -/
structure PollResults where
  results : List PollAnswerVoters
  total_voters : Nat
deriving DecidableEq

/-- `msg.media` for a poll message (telethon `MessageMediaPoll`):
`poll.question`, `poll.answers` and optional `results`. -/
structure MessageMediaPoll where
  question : String
  answers : List PollAnswer
  results : Option PollResults
deriving DecidableEq

/-- The initial option dict of `Sync._make_poll` (sync.py lines 346-350):
`{"label": a.text, "count": 0, "correct": False}` — no `percent` key yet. -/
def initPollOption (a : PollAnswer) : PollOption :=
  { label := a.text, count := 0, percent := Option.none, correct := false }

/-- The update the result loop makes to `options[i]` for result entry `r`
(sync.py lines 355-358): `percent` is `r.voters / total * 100` when
`total > 0`, else `0` — the division is never taken with a zero total. -/
def updatePollOption (total : Nat) (r : PollAnswerVoters)
    (o : PollOption) : PollOption :=
  { o with
    count := r.voters,
    percent := some (if 0 < total then (r.voters : ℚ) / total * 100 else 0),
    correct := r.correct }

/-- The result loop of `Sync._make_poll` (sync.py lines 353-358):
`for i, r in enumerate(results)` rewrites `options[i]`.  Returns
`Option.none` to model the `IndexError` Python raises when the results list
is longer than the options list; options beyond the results list are left
untouched. -/
def applyPollResults (total : Nat) :
    List PollOption → List PollAnswerVoters → Option (List PollOption)
  | os, [] => some os
  | os, r :: rs =>
    match os with
    | [] => Option.none
    | o :: os' =>
      (applyPollResults total os' rs).map
        (fun rest => updatePollOption total r o :: rest)

/-- `Sync._make_poll` (sync.py lines 342-366).  The outer `Option` models a
Python runtime error (`IndexError` from the result loop); the inner one is
the function's own `None` when `msg.media.results` is missing or its
`results` list is empty. -/
def make_poll (msgId : Nat) (p : MessageMediaPoll) :
    Option (Option TMedia) :=
  match p.results with
  | Option.none => some Option.none
  | some res =>
    if res.results = [] then some Option.none
    else
      (applyPollResults res.total_voters (p.answers.map initPollOption)
        res.results).map
        (fun opts => some
          { id := msgId, type := "poll", url := Option.none,
            title := some p.question,
            description := some (MediaDescription.pollOptions opts),
            thumb := Option.none })

/-- C6 counterexample: the claim as stated — for every poll with non-missing
results and `total_voters = 0`, every option of the encoded description has
`percent = 0` — is false: a poll with two answers but a single results entry
(total 0) yields a second option carrying no `percent` field at all. -/
theorem make_poll_zero_total_cex :
    ¬ (∀ (msgId : Nat) (p : MessageMediaPoll) (res : PollResults),
        p.results = some res → res.total_voters = 0 →
        ∀ med opts, make_poll msgId p = some (some med) →
          med.description = some (MediaDescription.pollOptions opts) →
          ∀ o ∈ opts, o.percent = some 0) := by
  intro h
  have := h 7 ⟨"q", [⟨"a"⟩, ⟨"b"⟩], some ⟨[⟨0, false⟩], 0⟩⟩
    ⟨[⟨0, false⟩], 0⟩ rfl rfl
    { id := 7, type := "poll", url := Option.none, title := some "q",
      description := some (MediaDescription.pollOptions
        [⟨"a", 0, some 0, false⟩, ⟨"b", 0, Option.none, false⟩]),
      thumb := Option.none }
    [⟨"a", 0, some 0, false⟩, ⟨"b", 0, Option.none, false⟩]
    (by decide) rfl ⟨"b", 0, Option.none, false⟩ (by decide)
  simp at this

/-- Helper for the amended C6: when the results list covers exactly the
options list and the total is 0, the loop assigns `percent = 0` to every
option and never divides. -/
theorem applyPollResults_zero_total (rs : List PollAnswerVoters)
    (os : List PollOption) (hlen : rs.length = os.length) :
    ∃ opts, applyPollResults 0 os rs = some opts ∧
      opts.length = os.length ∧ ∀ o ∈ opts, o.percent = some 0 := by
  induction rs generalizing os with
  | nil =>
    cases os with
    | nil => exact ⟨[], rfl, rfl, by simp⟩
    | cons o os => simp at hlen
  | cons r rs ih =>
    cases os with
    | nil => simp at hlen
    | cons o os =>
      obtain ⟨opts, hap, hlen', hall⟩ := ih os (by simpa using hlen)
      refine ⟨updatePollOption 0 r o :: opts, ?_, by simp [hlen'], ?_⟩
      · show (applyPollResults 0 os rs).map
          (fun rest => updatePollOption 0 r o :: rest) = _
        rw [hap]
        rfl
      · intro x hx
        rcases List.mem_cons.mp hx with hx | hx
        · subst hx
          rfl
        · exact hall x hx

/-- C6 amended: missing poll results convert to null; and whenever the
results list has exactly one entry per option (the provider's invariant —
the counterexample input violates it), `total_voters = 0` yields
`percent = 0` for every option of the encoded description, with no division
performed.  Options beyond a shorter results list keep no `percent` field. -/
theorem make_poll_zero_total_amended (msgId : Nat) (p : MessageMediaPoll) :
    (p.results = Option.none → make_poll msgId p = some Option.none) ∧
    (∀ res, p.results = some res →
      res.results.length = p.answers.length →
      res.total_voters = 0 → res.results ≠ [] →
      ∃ opts, make_poll msgId p = some (some
          { id := msgId, type := "poll", url := Option.none,
            title := some p.question,
            description := some (MediaDescription.pollOptions opts),
            thumb := Option.none }) ∧
        opts.length = p.answers.length ∧
        ∀ o ∈ opts, o.percent = some 0) := by
  constructor
  · intro h
    simp [make_poll, h]
  · intro res hres hlen htot hne
    obtain ⟨opts, hap, hlen', hall⟩ :=
      applyPollResults_zero_total res.results (p.answers.map initPollOption)
        (by simpa using hlen)
    refine ⟨opts, ?_, by simpa using hlen', hall⟩
    simp only [make_poll, hres]
    rw [if_neg hne, htot, hap]
    rfl

/-- Concrete run for `make_poll_zero_total_amended`: a two-answer poll with
two zero-vote results and `total_voters = 0`, and a poll with missing
results. -/
theorem make_poll_zero_total_amended_witness :
    make_poll 7 ⟨"q", [⟨"a"⟩, ⟨"b"⟩], Option.none⟩ = some Option.none ∧
      ∃ opts, make_poll 7
          ⟨"q", [⟨"a"⟩, ⟨"b"⟩], some ⟨[⟨0, false⟩, ⟨1, true⟩], 0⟩⟩
          = some (some
            { id := 7, type := "poll", url := Option.none,
              title := some "q",
              description := some (MediaDescription.pollOptions opts),
              thumb := Option.none }) ∧
        opts.length = 2 ∧ ∀ o ∈ opts, o.percent = some 0 :=
  ⟨(make_poll_zero_total_amended 7 ⟨"q", [⟨"a"⟩, ⟨"b"⟩], Option.none⟩).1
      rfl,
    (make_poll_zero_total_amended 7
      ⟨"q", [⟨"a"⟩, ⟨"b"⟩], some ⟨[⟨0, false⟩, ⟨1, true⟩], 0⟩⟩).2
      ⟨[⟨0, false⟩, ⟨1, true⟩], 0⟩ rfl rfl rfl (by decide)⟩

/-! ### Claims C7 and C10: media download, renaming and record shape -/

/-- The index of the last occurrence of `c` in a character list, if any. -/
def lastIdxOf (c : Char) : List Char → Option Nat
  | [] => Option.none
  | x :: xs =>
    match lastIdxOf c xs with
    | some i => some (i + 1)
    | Option.none => if x = c then some 0 else Option.none

/-- `os.path.splitext` restricted to a basename (no path separators), as
used on sync.py line 423 (CPython `genericpath._splitext`): split at the last
dot, unless every character before that dot is itself a dot (leading-dot
files such as `.bashrc` have no extension). -/
def splitext (p : List Char) : List Char × List Char :=
  match lastIdxOf '.' p with
  | Option.none => (p, [])
  | some i =>
    if (p.take i).all (fun ch => ch = '.') then (p, [])
    else (p.take i, p.drop i)

/-- The renamed on-disk filename computed by `Sync._download_media`
(sync.py lines 422-428): split the downloaded basename into stem and
extension; an `ext` longer than 6 characters (counting its dot, i.e. more
than 5 after the dot) is treated as not a real extension — the whole
basename becomes the stem and no extension is appended; the name is
`f'{msg.id} {stem}'` truncated to `250 - len(ext)` characters with `ext`
appended. -/
def newFileName (msgId : Nat) (basename : List Char) : List Char :=
  let se := splitext basename
  let stem := if se.2.length > 6 then basename else se.1
  let ext := if se.2.length > 6 then [] else se.2
  ((toString msgId).toList ++ ' ' :: stem).take (250 - ext.length) ++ ext

/-- One job handed to the Mover by `fmove` (sync.py lines 64-67), by file
basename (the media directory / temp directory prefixes are fixed
configuration). -/
structure MoveJob where
  src : List Char
  dest : List Char
deriving DecidableEq

/-- `Sync._download_media` (sync.py lines 403-439), parameterized by the
basename the client gave the downloaded file in the temp directory and, for
photos, the downloaded thumbnail's basename.  Returns the
`DownloadMediaReturn` tuple `(basename, fname, thumb)` (sync.py lines
29-33, 439) together with the jobs handed to the Mover: the media file is
moved to its new name, and a photo's thumbnail is moved under its own
unchanged basename. -/
def download_media (msgId : Nat) (downloadedBasename : List Char)
    (isPhoto : Bool) (thumbBasename : List Char) :
    ((List Char × List Char × Option (List Char)) × List MoveJob) :=
  let basename := downloadedBasename
  let newname := newFileName msgId basename
  if isPhoto then
    ((basename, newname, some thumbBasename),
      [⟨basename, newname⟩, ⟨thumbBasename, thumbBasename⟩])
  else
    ((basename, newname, Option.none), [⟨basename, newname⟩])

/-- C7: the final on-disk name handed to the Mover is
`"<messageId> <stem><ext>"` truncated to at most 250 characters (within the
common 255-character filesystem filename limit); when the extension part of
the basename is longer than 5 characters after the dot it is treated as not
a real extension: the whole basename becomes the stem and nothing is
appended. -/
theorem media_rename_shape (msgId : Nat) (b : List Char) (isPhoto : Bool)
    (tb : List Char) :
    (newFileName msgId b).length ≤ 250 ∧
    (∀ rest, (splitext b).2 = '.' :: rest → 5 < rest.length →
      newFileName msgId b =
        ((toString msgId).toList ++ ' ' :: b).take 250) ∧
    ((splitext b).2.length ≤ 6 →
      newFileName msgId b =
        ((toString msgId).toList ++ ' ' :: (splitext b).1).take
          (250 - (splitext b).2.length) ++ (splitext b).2) ∧
    ((download_media msgId b isPhoto tb).2.head? =
      some ⟨b, newFileName msgId b⟩) := by
  refine ⟨?_, ?_, ?_, ?_⟩
  · simp only [newFileName]
    by_cases h : (splitext b).2.length > 6
    · rw [if_pos h, if_pos h]
      simp only [List.length_append, List.length_take, List.length_nil]
      omega
    · rw [if_neg h, if_neg h]
      simp only [List.length_append, List.length_take]
      omega
  · intro rest hrest hlen
    simp only [newFileName]
    have h : (splitext b).2.length > 6 := by
      rw [hrest]
      simp
      omega
    simp [h]
  · intro h
    have h' : ¬ (splitext b).2.length > 6 := by omega
    simp only [newFileName]
    simp [h']
  · cases isPhoto <;> rfl

/-- Concrete run for `media_rename_shape`: basename `a.verylong` has a
7-character extension (6 after the dot), which is dropped. -/
theorem media_rename_shape_witness :
    newFileName 5 ("a.verylong".toList) =
        ((toString 5).toList ++ ' ' :: "a.verylong".toList).take 250 ∧
      newFileName 5 ("b.jpg".toList) =
        ((toString 5).toList ++ ' ' :: (splitext "b.jpg".toList).1).take
          (250 - (splitext "b.jpg".toList).2.length) ++
          (splitext "b.jpg".toList).2 :=
  ⟨(media_rename_shape 5 ("a.verylong".toList) false []).2.1
      ("verylong".toList) (by decide) (by decide),
    (media_rename_shape 5 ("b.jpg".toList) false []).2.2.1 (by decide)⟩

/-- The media variants `Sync._get_media` distinguishes (sync.py lines
368-401): a webpage preview (with its remote fields and whether the wrapped
webpage is `WebPageEmpty`), downloadable kinds (photo / document / contact),
and anything else. -/
inductive RawMediaKind where
  | webPage (url : String) (title : Option String)
      (description : Option String) (isEmpty : Bool)
  | photo
  | document
  | contact
  | otherMedia
deriving DecidableEq

/-- The downloadable branch guard of `Sync._get_media` (sync.py lines
379-381). -/
def isDownloadableKind : RawMediaKind → Bool
  | .photo => true
  | .document => true
  | .contact => true
  | _ => false

/-- The per-message media download configuration keys used by
`Sync._get_media` (config.py / sync.py lines 382-391). -/
structure MediaConfig where
  download_media : Bool
  media_mime_types : List String

/-- The MIME filter of `Sync._get_media` (sync.py lines 384-391): only when
an allow-list is configured and the message's file has a truthy mime type
that is not in the list is the media skipped. -/
def mimeBlocked (cfg : MediaConfig) (fileMime : Option String) : Bool :=
  (!cfg.media_mime_types.isEmpty) &&
    (match fileMime with
     | some mt => (!(mt == "")) && (!(cfg.media_mime_types.contains mt))
     | Option.none => false)

/-- `Sync._get_media` (sync.py lines 368-401), parameterized by the media
kind, the message file's mime type, and the basenames the client downloads
produce.  A non-empty webpage yields a `webpage` record (its falsy
description becomes null); a photo / document / contact yields — when
downloading is enabled and the MIME filter passes — a record of type
`"photo"` whose `url` is the renamed on-disk name, whose `title` is the
original basename, and whose `thumb` is the thumbnail name for photos only;
every other path falls off the function and returns `None`. -/
def get_media (cfg : MediaConfig) (msgId : Nat) (kind : RawMediaKind)
    (fileMime : Option String) (downloadedBasename thumbBasename : List Char) :
    Option TMedia :=
  match kind with
  | .webPage url title desc isEmpty =>
    if isEmpty = false then
      some { id := msgId, type := "webpage", url := some url, title := title,
             description :=
               match desc with
               | some d =>
                 if d ≠ "" then some (MediaDescription.text d)
                 else Option.none
               | Option.none => Option.none,
             thumb := Option.none }
    else Option.none
  | k =>
    if isDownloadableKind k then
      if cfg.download_media then
        if mimeBlocked cfg fileMime then Option.none
        else
          let dl := (download_media msgId downloadedBasename
            (k = RawMediaKind.photo) thumbBasename).1
          some { id := msgId, type := "photo",
                 url := some (String.mk dl.2.1),
                 title := some (String.mk dl.1),
                 description := Option.none,
                 thumb := (dl.2.2).map String.mk }
      else Option.none
    else Option.none

/-- C10: every downloadable photo / document / contact that passes the MIME
filter and is downloaded yields a Media record of type `"photo"` — never a
distinct `"document"` or `"contact"` type — with `url` the renamed final
filename, `title` the original basename, and a non-null `thumb` exactly when
the media is a photo. -/
theorem downloadable_media_record (cfg : MediaConfig) (msgId : Nat)
    (k : RawMediaKind) (fileMime : Option String) (db tb : List Char)
    (hk : isDownloadableKind k = true)
    (hdl : cfg.download_media = true)
    (hpass : mimeBlocked cfg fileMime = false) :
    ∃ med, get_media cfg msgId k fileMime db tb = some med ∧
      med.type = "photo" ∧
      med.url = some (String.mk (newFileName msgId db)) ∧
      med.title = some (String.mk db) ∧
      (med.thumb ≠ Option.none ↔ k = RawMediaKind.photo) := by
  cases k with
  | webPage url title desc isEmpty => simp [isDownloadableKind] at hk
  | otherMedia => simp [isDownloadableKind] at hk
  | photo =>
    refine ⟨{ id := msgId, type := "photo",
              url := some (String.mk (newFileName msgId db)),
              title := some (String.mk db), description := Option.none,
              thumb := some (String.mk tb) }, ?_, rfl, rfl, rfl, by simp⟩
    simp [get_media, isDownloadableKind, hdl, hpass, download_media]
  | document =>
    refine ⟨{ id := msgId, type := "photo",
              url := some (String.mk (newFileName msgId db)),
              title := some (String.mk db), description := Option.none,
              thumb := Option.none }, ?_, rfl, rfl, rfl, by simp⟩
    simp [get_media, isDownloadableKind, hdl, hpass, download_media]
  | contact =>
    refine ⟨{ id := msgId, type := "photo",
              url := some (String.mk (newFileName msgId db)),
              title := some (String.mk db), description := Option.none,
              thumb := Option.none }, ?_, rfl, rfl, rfl, by simp⟩
    simp [get_media, isDownloadableKind, hdl, hpass, download_media]

/-- Concrete runs for `downloadable_media_record`: a downloaded photo (thumb
present) and a downloaded document (no thumb), no MIME allow-list. -/
theorem downloadable_media_record_witness :
    (∃ med, get_media ⟨true, []⟩ 9 RawMediaKind.photo
        (some "image/jpeg") ("p.jpg".toList) ("t.jpg".toList) = some med ∧
      med.type = "photo" ∧
      med.url = some (String.mk (newFileName 9 ("p.jpg".toList))) ∧
      med.title = some (String.mk ("p.jpg".toList)) ∧
      (med.thumb ≠ Option.none ↔ RawMediaKind.photo = RawMediaKind.photo)) ∧
    (∃ med, get_media ⟨true, []⟩ 9 RawMediaKind.document
        (some "application/pdf") ("d.pdf".toList) ("t.jpg".toList)
        = some med ∧
      med.type = "photo" ∧
      med.url = some (String.mk (newFileName 9 ("d.pdf".toList))) ∧
      med.title = some (String.mk ("d.pdf".toList)) ∧
      (med.thumb ≠ Option.none ↔
        RawMediaKind.document = RawMediaKind.photo)) :=
  ⟨downloadable_media_record ⟨true, []⟩ 9 RawMediaKind.photo
      (some "image/jpeg") ("p.jpg".toList) ("t.jpg".toList) rfl rfl rfl,
    downloadable_media_record ⟨true, []⟩ 9 RawMediaKind.document
      (some "application/pdf") ("d.pdf".toList) ("t.jpg".toList) rfl rfl
      rfl⟩

/-! ### Claim C8: the Mover worker -/

/-- The shared state of the Mover (sync.py lines 24-67): the `move_files`
deque, the `move_event` flag, the `exit_signaled` flag, the moves performed
so far on the filesystem, whether the worker thread has died from an
unhandled exception, and the last `(src, dest)` pair bound inside the
worker's loop body. -/
structure MoverState where
  move_files : List MoveJob
  move_event : Bool
  exit_signaled : Bool
  moved : List MoveJob
  crashed : Bool
  bound : Option MoveJob
deriving DecidableEq

/-- One iteration of `moving_thread_fn` (sync.py lines 35-45), run with no
other thread active (the situation after `finish_moving_thread` sets the
flags and blocks in `join`): if the event is clear the worker stays blocked
in `move_event.wait()`; otherwise it clears the event, pops the leftmost
queued job and moves it, or — on `IndexError` with `exit_signaled` still
false — loops back to waiting.  On `IndexError` with `exit_signaled` set,
control falls through the `try` block to `shutil.move(src, dest)` with
`src`/`dest` unbound (first iteration: `NameError`) or stale (the previous
pair, whose source file no longer exists): the call raises and the thread
dies. -/
def moverStep (s : MoverState) : MoverState :=
  if s.crashed = true then s
  else if s.move_event = false then s
  else
    let s1 : MoverState := { s with move_event := false }
    match s1.move_files with
    | j :: rest =>
      { s1 with
        move_files := rest,
        bound := some j,
        moved := s1.moved ++ [j] }
    | [] =>
      if s1.exit_signaled = false then s1
      else { s1 with crashed := true }

/-- `fmove` (sync.py lines 64-67): append the job and set the event. -/
def fmoveStep (s : MoverState) (j : MoveJob) : MoverState :=
  { s with move_files := s.move_files ++ [j], move_event := true }

/-- `finish_moving_thread` up to its `join` (sync.py lines 52-58): set
`exit_signaled`, set the event, and block until the worker exits. -/
def shutdownSignal (s : MoverState) : MoverState :=
  { s with exit_signaled := true, move_event := true }

/-- The state at interpreter start (sync.py lines 24-26, 48-49). -/
def initMover : MoverState :=
  ⟨[], false, false, [], false, Option.none⟩

/-- First concrete move job. -/
def jobW1 : MoveJob := ⟨"a".toList, "b".toList⟩

/-- Second concrete move job. -/
def jobW2 : MoveJob := ⟨"c".toList, "d".toList⟩

/-- The state after two `fmove` submissions followed by the shutdown
signal, with the worker waiting at the top of its loop. -/
def moverShutdownW : MoverState :=
  shutdownSignal (fmoveStep (fmoveStep initMover jobW1) jobW2)

/-- C8 (failing run): with two jobs queued at shutdown, the worker pops and
moves the first job in FIFO order, clearing the event in that same
iteration — and then blocks forever in `move_event.wait()`: nobody can set
the event again (the main thread is in `join`), so the second submitted job
is never drained; it stays queued and unmoved after any number of worker
steps, and the worker neither exits nor crashes — `join` never returns.
This refutes the graceful-drain claim: a submitted job is dropped. -/
theorem mover_shutdown_drops_second_job :
    (moverStep moverShutdownW).moved = [jobW1] ∧
      ∀ n : Nat, jobW2 ∈ (moverStep^[n] moverShutdownW).move_files ∧
        jobW2 ∉ (moverStep^[n] moverShutdownW).moved ∧
        (moverStep^[n] moverShutdownW).crashed = false := by
  have hstuck : moverStep (moverStep moverShutdownW)
      = moverStep moverShutdownW := by decide
  have hfix : ∀ n : Nat, moverStep^[n] moverShutdownW = moverShutdownW ∨
      moverStep^[n] moverShutdownW = moverStep moverShutdownW := by
    intro n
    induction n with
    | zero => exact Or.inl rfl
    | succ n ih =>
      rw [Function.iterate_succ_apply']
      rcases ih with h | h
      · rw [h]
        exact Or.inr rfl
      · rw [h, hstuck]
        exact Or.inr rfl
  refine ⟨by decide, ?_⟩
  intro n
  rcases hfix n with h | h <;> rw [h] <;> decide
